import Mathlib

/-!
Verification of the diagram_generator repository: a shallow embedding of
the diagram validator (`backend/utils/diagram_validator.py`), the retry /
circuit-breaker utilities (`backend/utils/retry.py`) and the agent repair
loop (`backend/agents/diagram_agent.py`), together with theorems settling
the specification claims.

Python strings are modelled as `List Char`; the Python string primitives
used by the source (`strip`, `rstrip`, `split`, `replace`, `lower`,
substring membership, ...) are defined below with Python's semantics.
-/

namespace DiagramGen

/-- Python strings, modelled as lists of characters. -/
abbrev Str := List Char

/-- Python's default whitespace set for `str.strip()` / `str.split()`
(ASCII: space, tab, newline, carriage return, vertical tab, form feed). -/
def pyIsSpace (c : Char) : Bool :=
  c = ' ' || c = '\t' || c = '\n' || c = '\r' ||
  c = Char.ofNat 11 || c = Char.ofNat 12

/-- Python `str.lstrip()` (whitespace variant). -/
def lstripWS (s : Str) : Str := s.dropWhile pyIsSpace

/-- Helper for `rstripP`: prepend `x` to an already right-stripped tail. -/
def rstripStep (p : Char → Bool) (x : Char) (r : Str) : Str :=
  match r with
  | [] => if p x then [] else [x]
  | y :: ys => x :: y :: ys

/-- Remove trailing characters satisfying `p` (structural form of Python
`str.rstrip`). -/
def rstripP (p : Char → Bool) : Str → Str
  | [] => []
  | x :: xs => rstripStep p x (rstripP p xs)

/-- Python `str.rstrip()` (whitespace variant). -/
def rstripWS (s : Str) : Str := rstripP pyIsSpace s

/-- Python `str.strip()` (whitespace variant). -/
def pyStrip (s : Str) : Str := rstripWS (lstripWS s)

/-- Python `str.strip(chars)` for a single character set `p`:
strip matching characters from both ends. -/
def pyStripChar (p : Char → Bool) (s : Str) : Str :=
  rstripP p (s.dropWhile p)

/-- Python `str.split(sep)` for a one-character separator: splits on every
occurrence, keeping empty pieces, and returns at least one piece. -/
def splitChar (c : Char) : Str → List Str
  | [] => [[]]
  | x :: xs =>
    if x = c then [] :: splitChar c xs
    else
      match splitChar c xs with
      | [] => [[x]]
      | y :: ys => (x :: y) :: ys

/-- `sep.join(pieces)` for a one-character separator. -/
def joinChar (c : Char) : List Str → Str
  | [] => []
  | [s] => s
  | s :: s' :: rest => s ++ c :: joinChar c (s' :: rest)

/-- Python `str.split()` with no argument: split on whitespace runs,
dropping empty tokens. -/
def pySplitWS (s : Str) : List Str :=
  (s.splitOnP pyIsSpace).filter (· ≠ [])

/-- Python `str.lower()` (ASCII case folding, as used by the source). -/
def pyLower (s : Str) : Str := s.map Char.toLower

/-- Python `prefix in s` / `str.startswith` helper: list prefix test. -/
def startsWith (p s : Str) : Bool := List.isPrefixOf p s

/-- Python `str.endswith`. -/
def endsWith (p s : Str) : Bool := List.isSuffixOf p s

/-- Python `sub in s`: substring containment. -/
def containsSub (pat : Str) : Str → Bool
  | [] => pat.isEmpty
  | x :: xs => List.isPrefixOf pat (x :: xs) || containsSub pat xs

/-- Recursion core of `pyReplace`, fuelled by the input length so that the
definition is structural (and hence kernel-reducible).  The fuel never runs
out when initialised with the input's length, since each step consumes at
least one character. -/
def pyReplaceGo (pat rep : Str) : Nat → Str → Str
  | _, [] => []
  | 0, s => s
  | fuel + 1, x :: xs =>
    if pat ≠ [] ∧ List.isPrefixOf pat (x :: xs) then
      rep ++ pyReplaceGo pat rep fuel ((x :: xs).drop pat.length)
    else
      x :: pyReplaceGo pat rep fuel xs

/-- Python `str.replace(pat, rep)` for a nonempty pattern: replace
non-overlapping occurrences left to right.  (For `pat = []` the source
never calls it.) -/
def pyReplace (pat rep s : Str) : Str := pyReplaceGo pat rep s.length s

/-! ### `DiagramValidator._clean_mermaid_code` -/

/-- One line of `_clean_mermaid_code`'s loop body.  `i` is the line index
and `isPie` records whether line 0 declared a pie chart. -/
def cleanMermaidLine (isPie : Bool) (i : Nat) (line0 : Str) : Str :=
  -- `if i == 0 and line.strip().lower().startswith('pie'): ... line = 'pie'`
  let line :=
    if i = 0 && isPie && !startsWith ("pie title".data) (pyLower (pyStrip line0))
    then ("pie".data) else line0
  -- strip trailing whitespace, then one trailing semicolon
  let stripped := rstripWS line
  let stripped := if stripped.getLast? = some ';' then stripped.dropLast else stripped
  -- pie charts: drop trailing '%' signs on value lines
  let stripped :=
    if isPie && decide (0 < i) && containsSub ("%".data) stripped
    then rstripP (· = '%') stripped else stripped
  -- rewrite numbered linkStyle directives to the default form
  if containsSub ("linkStyle".data) stripped then
    if containsSub ("linkStyle 0 ".data) stripped
        || containsSub ("linkStyle 1 ".data) stripped then
      pyReplace ("linkStyle 1 ".data) ("linkStyle default ".data)
        (pyReplace ("linkStyle 0 ".data) ("linkStyle default ".data) stripped)
    else stripped
  else stripped

/-- `DiagramValidator._clean_mermaid_code`. -/
def cleanMermaidCode (code : Str) : Str :=
  let lines := splitChar '\n' (pyStrip code)
  let isPie :=
    match lines with
    | [] => false
    | l0 :: _ => startsWith ("pie".data) (pyLower (pyStrip l0))
  joinChar '\n' (lines.enum.map fun p => cleanMermaidLine isPie p.1 p.2)

/-! ### `DiagramValidator._clean_plantuml_code` -/

/-- The tag-fixing step of `_clean_plantuml_code`'s loop body: on a
space-free `@start...` / `@end...` tag, lower-case the first characters
(`stripped[:5].lower() + stripped[5:]`, resp. `[:4]`). -/
def cleanPlantumlTag (s : Str) : Str :=
  if startsWith ("@start".data) s && !containsSub (" ".data) s then
    pyLower (s.take 5) ++ s.drop 5
  else if startsWith ("@end".data) s && !containsSub (" ".data) s then
    pyLower (s.take 4) ++ s.drop 4
  else s

/-- One line of `_clean_plantuml_code`'s loop body: strip the line, then
fix the tag casing. -/
def cleanPlantumlLine (l : Str) : Str := cleanPlantumlTag (pyStrip l)

/-- `DiagramValidator._clean_plantuml_code`. -/
def cleanPlantumlCode (code : Str) : Str :=
  joinChar '\n' ((splitChar '\n' (pyStrip code)).map cleanPlantumlLine)

/-! ### Lemmas about the string primitives -/

theorem splitChar_ne_nil (c : Char) (s : Str) : splitChar c s ≠ [] := by
  induction s with
  | nil => simp [splitChar]
  | cons x xs ih =>
    simp only [splitChar]
    split
    · simp
    · cases h : splitChar c xs with
      | nil => simp
      | cons y ys => simp

theorem not_mem_of_mem_splitChar {c : Char} {s t : Str}
    (h : t ∈ splitChar c s) : c ∉ t := by
  induction s generalizing t with
  | nil => simp [splitChar] at h; simp [h]
  | cons x xs ih =>
    simp only [splitChar] at h
    split at h
    · rcases List.mem_cons.mp h with rfl | h
      · simp
      · exact ih h
    · rename_i hx
      cases hs : splitChar c xs with
      | nil => exact absurd hs (splitChar_ne_nil c xs)
      | cons y ys =>
        rw [hs] at h
        rcases List.mem_cons.mp h with rfl | h
        · intro hmem
          rcases List.mem_cons.mp hmem with rfl | hmem
          · exact hx rfl
          · exact ih (hs ▸ List.mem_cons_self y ys) hmem
        · exact ih (hs ▸ List.mem_cons.mpr (Or.inr h))

theorem splitChar_of_not_mem {c : Char} {s : Str} (h : c ∉ s) :
    splitChar c s = [s] := by
  induction s with
  | nil => rfl
  | cons x xs ih =>
    simp only [splitChar]
    rw [if_neg (by intro hx; exact h (hx ▸ List.mem_cons_self x xs))]
    rw [ih (fun hm => h (List.mem_cons.mpr (Or.inr hm)))]

theorem splitChar_append_cons {c : Char} {s : Str} (r : Str) (h : c ∉ s) :
    splitChar c (s ++ c :: r) = s :: splitChar c r := by
  induction s with
  | nil => simp [splitChar]
  | cons x xs ih =>
    have hx : x ≠ c := fun hx => h (hx ▸ List.mem_cons_self x xs)
    have hxs : c ∉ xs := fun hm => h (List.mem_cons.mpr (Or.inr hm))
    rw [List.cons_append]
    simp only [splitChar, if_neg hx]
    rw [ih hxs]

theorem splitChar_joinChar {c : Char} {L : List Str}
    (hL : L ≠ []) (h : ∀ t ∈ L, c ∉ t) :
    splitChar c (joinChar c L) = L := by
  induction L with
  | nil => exact absurd rfl hL
  | cons s L' ih =>
    cases L' with
    | nil =>
      simp only [joinChar]
      exact splitChar_of_not_mem (h s (List.mem_cons_self s []))
    | cons s' rest =>
      simp only [joinChar]
      rw [splitChar_append_cons _ (h s (List.mem_cons_self _ _))]
      rw [ih (by simp) (fun t ht => h t (List.mem_cons.mpr (Or.inr ht)))]

theorem rstripP_cons {p : Char → Bool} {a : Char} (t : Str) (ha : p a = false) :
    rstripP p (a :: t) = a :: rstripP p t := by
  simp only [rstripP]
  cases h : rstripP p t with
  | nil => simp [rstripStep, ha]
  | cons y ys => rfl

theorem rstripP_sublist (p : Char → Bool) (s : Str) :
    List.Sublist (rstripP p s) s := by
  induction s with
  | nil => simp [rstripP]
  | cons x xs ih =>
    simp only [rstripP]
    cases h : rstripP p xs with
    | nil =>
      simp only [rstripStep]
      split
      · exact List.nil_sublist _
      · exact List.cons_sublist_cons.mpr (List.nil_sublist _)
    | cons y ys =>
      simp only [rstripStep]
      exact List.cons_sublist_cons.mpr (h ▸ ih)

theorem getLast?_rstripP {p : Char → Bool} {s : Str} {b : Char}
    (h : (rstripP p s).getLast? = some b) : p b = false := by
  induction s with
  | nil => simp [rstripP] at h
  | cons x xs ih =>
    simp only [rstripP] at h
    cases hx : rstripP p xs with
    | nil =>
      rw [hx] at h
      simp only [rstripStep] at h
      split at h
      · simp at h
      · rename_i hpx
        simp only [List.getLast?, Option.some.injEq] at h
        subst h
        simpa using hpx
    | cons y ys =>
      rw [hx] at h
      simp only [rstripStep, List.getLast?_cons_cons] at h
      exact ih (hx ▸ h)

theorem rstripP_eq_self {p : Char → Bool} {s : Str} {b : Char}
    (hb : s.getLast? = some b) (hp : p b = false) : rstripP p s = s := by
  induction s with
  | nil => simp at hb
  | cons x xs ih =>
    cases xs with
    | nil =>
      simp only [List.getLast?, Option.some.injEq] at hb
      subst hb
      have hpx : p x = false := by simpa using hp
      simp [rstripP, rstripStep, hpx]
    | cons x' xs' =>
      rw [List.getLast?_cons_cons] at hb
      have hself := ih hb
      simp only [rstripP] at hself ⊢
      rw [hself]
      rfl

theorem rstripP_idem (p : Char → Bool) (s : Str) :
    rstripP p (rstripP p s) = rstripP p s := by
  cases h : (rstripP p s).getLast? with
  | none =>
    rw [List.getLast?_eq_none_iff] at h
    simp [h, rstripP]
  | some b => exact rstripP_eq_self h (getLast?_rstripP h)

theorem head?_dropWhile_false {p : Char → Bool} {s : Str} {a : Char} {t : Str}
    (h : s.dropWhile p = a :: t) : p a = false := by
  induction s with
  | nil => simp [List.dropWhile] at h
  | cons x xs ih =>
    rw [List.dropWhile_cons] at h
    split at h
    · exact ih h
    · cases h
      rename_i hx
      simpa using hx

theorem head?_rstripP_ne_nil {p : Char → Bool} {s : Str}
    (h : rstripP p s ≠ []) : (rstripP p s).head? = s.head? := by
  cases s with
  | nil => rfl
  | cons x xs =>
    simp only [rstripP] at h ⊢
    cases hx : rstripP p xs with
    | nil =>
      rw [hx] at h
      cases hpx : p x with
      | true => exact absurd (by simp [rstripStep, hpx]) h
      | false => simp [rstripStep, hpx]
    | cons y ys => rfl

theorem pyStrip_idem (s : Str) : pyStrip (pyStrip s) = pyStrip s := by
  unfold pyStrip rstripWS lstripWS
  set u := s.dropWhile pyIsSpace with hu
  have hls : (rstripP pyIsSpace u).dropWhile pyIsSpace = rstripP pyIsSpace u := by
    cases h : rstripP pyIsSpace u with
    | nil => rfl
    | cons y ys =>
      have hh : (rstripP pyIsSpace u).head? = u.head? :=
        head?_rstripP_ne_nil (by rw [h]; simp)
      rw [h] at hh
      cases hv : u with
      | nil => rw [hv] at h; simp [rstripP] at h
      | cons a t =>
        rw [hv] at hh
        simp only [List.head?_cons, Option.some.injEq] at hh
        have ha : pyIsSpace a = false := head?_dropWhile_false (hu ▸ hv)
        subst hh
        rw [List.dropWhile_cons]
        simp [ha]
  rw [hls, rstripP_idem]

/-- The first character of a stripped string is not whitespace. -/
theorem head?_pyStrip_false {s : Str} {a : Char} {t : Str}
    (h : pyStrip s = a :: t) : pyIsSpace a = false := by
  unfold pyStrip rstripWS lstripWS at h
  have hne : rstripP pyIsSpace (s.dropWhile pyIsSpace) ≠ [] := by rw [h]; simp
  have hh := head?_rstripP_ne_nil hne
  rw [h] at hh
  cases hv : s.dropWhile pyIsSpace with
  | nil => rw [hv] at hh; simp at hh
  | cons b u =>
    rw [hv] at hh
    simp only [List.head?_cons, Option.some.injEq] at hh
    exact hh ▸ head?_dropWhile_false hv

/-- The last character of a stripped string is not whitespace. -/
theorem getLast?_pyStrip_false {s : Str} {b : Char}
    (h : (pyStrip s).getLast? = some b) : pyIsSpace b = false :=
  getLast?_rstripP h

theorem getLast?_single {α : Type} (x : α) : ([x]).getLast? = some x := rfl

theorem getLast?_cons_ne_nil {α : Type} {x : α} {t : List α} (h : t ≠ []) :
    (x :: t).getLast? = t.getLast? := by
  cases t with
  | nil => exact absurd rfl h
  | cons y ys => exact List.getLast?_cons_cons

theorem startsWith_exists {p s : Str} (h : startsWith p s = true) :
    ∃ t, s = p ++ t := by
  induction p generalizing s with
  | nil => exact ⟨s, rfl⟩
  | cons a p ih =>
    cases s with
    | nil => simp [startsWith, List.isPrefixOf] at h
    | cons b s' =>
      simp only [startsWith, List.isPrefixOf, Bool.and_eq_true, beq_iff_eq] at h
      obtain ⟨rfl, h2⟩ := h
      obtain ⟨t, rfl⟩ := ih h2
      exact ⟨t, rfl⟩

/-- The tag-normalization step of `_clean_plantuml_code` is extensionally
the identity: it lower-cases `stripped[:5]` of a case-sensitively matched
`@start` prefix (resp. `[:4]` of `@end`), which is already lower-case. -/
theorem cleanPlantumlTag_eq_id (s : Str) : cleanPlantumlTag s = s := by
  unfold cleanPlantumlTag
  split
  · rename_i h
    have hp : startsWith ("@start".data) s = true :=
      (Bool.and_eq_true _ _).mp h |>.1
    obtain ⟨t, ht⟩ := startsWith_exists hp
    rw [ht]
    rfl
  · split
    · rename_i h1 h
      have hp : startsWith ("@end".data) s = true :=
        (Bool.and_eq_true _ _).mp h |>.1
      obtain ⟨t, ht⟩ := startsWith_exists hp
      rw [ht]
      rfl
    · rfl

theorem cleanPlantumlLine_eq_pyStrip (l : Str) :
    cleanPlantumlLine l = pyStrip l := by
  unfold cleanPlantumlLine
  exact cleanPlantumlTag_eq_id _

theorem splitChar_cons_self (c : Char) (s : Str) :
    splitChar c (c :: s) = [] :: splitChar c s := by
  simp [splitChar]

theorem getLast?_dropWhile {p : Char → Bool} {l : Str} {b : Char}
    (hb : l.getLast? = some b) (hp : p b = false) :
    (l.dropWhile p).getLast? = some b := by
  induction l with
  | nil => simp at hb
  | cons x xs ih =>
    cases xs with
    | nil =>
      rw [getLast?_single] at hb
      obtain rfl := Option.some.inj hb
      rw [List.dropWhile_cons]
      simp [hp]
    | cons x' xs' =>
      rw [List.getLast?_cons_cons] at hb
      rw [List.dropWhile_cons]
      split
      · exact ih hb
      · rw [getLast?_cons_ne_nil (by simp), hb]

theorem getLast?_pyStrip {s : Str} {b : Char}
    (hb : s.getLast? = some b) (hp : pyIsSpace b = false) :
    (pyStrip s).getLast? = some b := by
  unfold pyStrip rstripWS lstripWS
  have h1 := getLast?_dropWhile hb hp
  rw [rstripP_eq_self h1 hp]
  exact h1

theorem pyStrip_cons_nonspace {a : Char} (t : Str) (ha : pyIsSpace a = false) :
    pyStrip (a :: t) = a :: rstripWS t := by
  unfold pyStrip lstripWS rstripWS
  rw [List.dropWhile_cons]
  simp only [ha, Bool.false_eq_true, if_false]
  exact rstripP_cons t ha

theorem pyStrip_eq_self {s : Str} {a b : Char}
    (hh : s.head? = some a) (ha : pyIsSpace a = false)
    (hl : s.getLast? = some b) (hb : pyIsSpace b = false) :
    pyStrip s = s := by
  cases s with
  | nil => simp at hh
  | cons x xs =>
    simp only [List.head?_cons, Option.some.injEq] at hh
    subst hh
    unfold pyStrip lstripWS
    rw [List.dropWhile_cons]
    simp only [ha, Bool.false_eq_true, if_false]
    exact rstripP_eq_self hl hb

theorem splitChar_cons_head {c a : Char} (s' : Str) (ha : a ≠ c) :
    ∃ y ys, splitChar c s' = y :: ys ∧ splitChar c (a :: s') = (a :: y) :: ys := by
  cases h : splitChar c s' with
  | nil => exact absurd h (splitChar_ne_nil c s')
  | cons y ys =>
    refine ⟨y, ys, rfl, ?_⟩
    simp only [splitChar, if_neg ha]
    rw [h]

theorem getLast?_splitChar {c : Char} {s : Str} {b : Char}
    (hb : s.getLast? = some b) (hbc : b ≠ c) :
    ∃ t, (splitChar c s).getLast? = some t ∧ t.getLast? = some b := by
  induction s with
  | nil => simp at hb
  | cons x xs ih =>
    cases xs with
    | nil =>
      rw [getLast?_single] at hb
      obtain rfl := Option.some.inj hb
      refine ⟨[x], ?_, getLast?_single x⟩
      obtain ⟨y, ys, h1, h2⟩ := splitChar_cons_head ([] : Str) hbc
      simp only [splitChar] at h1
      obtain ⟨rfl, rfl⟩ : y = [] ∧ ys = ([] : List Str) := by
        constructor <;> [exact (List.cons.injEq _ _ _ _ ▸ h1).1.symm ▸ rfl;
          exact ((List.cons.injEq _ _ _ _).mp h1.symm).2.symm ▸ rfl]
      rw [h2]
      rfl
    | cons x' xs' =>
      rw [List.getLast?_cons_cons] at hb
      obtain ⟨t, h1, h2⟩ := ih hb
      by_cases hx : x = c
      · subst hx
        refine ⟨t, ?_, h2⟩
        rw [splitChar_cons_self, getLast?_cons_ne_nil (splitChar_ne_nil _ _), h1]
      · obtain ⟨y, ys, hy1, hy2⟩ := splitChar_cons_head (x' :: xs') hx
        rw [hy2]
        rw [hy1] at h1
        cases ys with
        | nil =>
          rw [getLast?_single] at h1
          obtain rfl := Option.some.inj h1
          have hty : y ≠ [] := by
            intro hnil
            rw [hnil] at h2
            simp at h2
          exact ⟨x :: y, getLast?_single _, by rw [getLast?_cons_ne_nil hty]; exact h2⟩
        | cons y' ys' =>
          rw [List.getLast?_cons_cons] at h1 ⊢
          exact ⟨t, h1, h2⟩

theorem joinChar_head (c a : Char) (m : Str) (L' : List Str) :
    (joinChar c ((a :: m) :: L')).head? = some a := by
  cases L' with
  | nil => rfl
  | cons s' rest => rfl

theorem joinChar_getLast? {c : Char} {L : List Str} {t : Str} {b : Char}
    (hL : L.getLast? = some t) (hb : t.getLast? = some b) :
    (joinChar c L).getLast? = some b := by
  induction L with
  | nil => simp at hL
  | cons s L' ih =>
    cases L' with
    | nil =>
      simp only [List.getLast?, Option.some.injEq] at hL
      have : s = t := by simpa using hL
      subst this
      exact hb
    | cons s' rest =>
      rw [List.getLast?_cons_cons] at hL
      have hj := ih hL
      have hjne : joinChar c (s' :: rest) ≠ [] := by
        intro hnil
        rw [hnil] at hj
        simp at hj
      show (s ++ c :: joinChar c (s' :: rest)).getLast? = some b
      rw [List.getLast?_append_of_ne_nil _ (by simp)]
      rw [getLast?_cons_ne_nil hjne]
      exact hj

theorem not_mem_pyStrip {c : Char} {m : Str} (h : c ∉ m) : c ∉ pyStrip m := by
  intro hmem
  apply h
  have h1 : List.Sublist (pyStrip m) (lstripWS m) := rstripP_sublist _ _
  have h2 : List.Sublist (lstripWS m) m := List.dropWhile_sublist _
  exact (h1.trans h2).subset hmem

/-- Claim C1 (amended part): `_clean_plantuml_code` is idempotent. -/
theorem cleanPlantumlCode_idem (x : Str) :
    cleanPlantumlCode (cleanPlantumlCode x) = cleanPlantumlCode x := by
  have hline : ∀ z : Str, cleanPlantumlCode z =
      joinChar '\n' ((splitChar '\n' (pyStrip z)).map pyStrip) := by
    intro z
    unfold cleanPlantumlCode
    rw [funext cleanPlantumlLine_eq_pyStrip]
  rw [hline x, hline (joinChar '\n' ((splitChar '\n' (pyStrip x)).map pyStrip))]
  cases hM : pyStrip x with
  | nil => rfl
  | cons a s' =>
    have ha : pyIsSpace a = false := head?_pyStrip_false hM
    have hanl : a ≠ '\n' := by
      intro hnl
      rw [hnl] at ha
      exact absurd ha (by decide)
    obtain ⟨y0, ys0, hs0, hsplit⟩ := splitChar_cons_head s' hanl
    -- last character of the stripped input
    have hlast : ∃ b, (a :: s').getLast? = some b := by
      cases s' with
      | nil => exact ⟨a, rfl⟩
      | cons u v => exact ⟨(u :: v).getLast (by simp), by
          rw [List.getLast?_cons_cons]
          exact (List.getLast?_eq_getLast _ (by simp))⟩
    obtain ⟨b, hb⟩ := hlast
    have hbs : pyIsSpace b = false := getLast?_rstripP (by rw [← hM] at hb; exact hb)
    have hbnl : b ≠ '\n' := by
      intro hnl
      rw [hnl] at hbs
      exact absurd hbs (by decide)
    obtain ⟨tm, htm1, htm2⟩ := getLast?_splitChar hb hbnl
    -- the joined once-cleaned string
    rw [hsplit]
    set L : List Str := pyStrip (a :: y0) :: ys0.map pyStrip with hLdef
    have hmapL : (((a :: y0) :: ys0).map pyStrip) = L := by simp [hLdef]
    rw [hmapL]
    have hhead : pyStrip (a :: y0) = a :: rstripWS y0 := pyStrip_cons_nonspace y0 ha
    -- head and last of the join
    have hyhead : (joinChar '\n' L).head? = some a := by
      rw [hLdef, hhead]
      exact joinChar_head _ _ _ _
    have hLlast : L.getLast? = some (pyStrip tm) := by
      rw [hLdef, ← List.map_cons, List.getLast?_map]
      rw [hsplit] at htm1
      rw [htm1]
      rfl
    have hylast : (joinChar '\n' L).getLast? = some b :=
      joinChar_getLast? hLlast (getLast?_pyStrip htm2 hbs)
    -- strip is a no-op on the join
    have hstrip : pyStrip (joinChar '\n' L) = joinChar '\n' L :=
      pyStrip_eq_self hyhead ha hylast hbs
    rw [hstrip]
    -- splitting the join recovers the stripped pieces
    have hnomem : ∀ t ∈ L, '\n' ∉ t := by
      intro t ht
      rw [hLdef] at ht
      have : t ∈ ((a :: y0) :: ys0).map pyStrip := by
        rw [List.map_cons]
        exact ht
      obtain ⟨m, hm, rfl⟩ := List.mem_map.mp this
      have hmM : m ∈ splitChar '\n' (a :: s') := by rw [hsplit]; exact hm
      exact not_mem_pyStrip (not_mem_of_mem_splitChar hmM)
    rw [splitChar_joinChar (by simp [hLdef]) hnomem]
    -- restripping the stripped pieces is a no-op
    have : L.map pyStrip = L := by
      rw [hLdef]
      simp only [List.map_cons, List.map_map]
      rw [pyStrip_idem]
      congr 1
      exact List.map_congr_left fun m _ => pyStrip_idem m
    rw [this]

/-! ### Further Python string primitives used by the validator -/

/-- Recursion core of `pySplitSub`, fuelled like `pyReplaceGo`. -/
def pySplitSubGo (sep : Str) : Nat → Str → List Str
  | _, [] => [[]]
  | 0, s => [s]
  | fuel + 1, x :: xs =>
    if sep ≠ [] ∧ List.isPrefixOf sep (x :: xs) then
      [] :: pySplitSubGo sep fuel ((x :: xs).drop sep.length)
    else
      match pySplitSubGo sep fuel xs with
      | [] => [[x]]
      | y :: ys => (x :: y) :: ys

/-- Python `str.split(sep)` for a nonempty substring separator. -/
def pySplitSub (sep s : Str) : List Str := pySplitSubGo sep s.length s

/-- Python `str.find(c)` for a single character: index of the first
occurrence, or `none` (Python: `-1`). -/
def idxOfChar (c : Char) : Str → Option Nat
  | [] => none
  | x :: xs => if x = c then some 0 else (idxOfChar c xs).map (· + 1)

/-- Python `str.rindex(sub)`: start index of the last occurrence.  The
source only calls it when the substring is known to occur (the code ends
with `@enduml`); we default to 0 otherwise. -/
def pyRIndexD (needle s : Str) : Nat :=
  (((List.range (s.length + 1)).filter
    (fun i => List.isPrefixOf needle (s.drop i))).getLastD 0)

def isAsciiDigit (c : Char) : Bool := '0' ≤ c && c ≤ '9'

/-- Exponent part of a Python float literal (`e`/`E`, optional sign,
digits), or the empty string. -/
def pyFloatExp : Str → Bool
  | [] => true
  | c :: rest =>
    (c = 'e' || c = 'E') &&
    (let r := match rest with
              | s :: r' => if s = '+' || s = '-' then r' else rest
              | [] => rest
     !r.isEmpty && r.all isAsciiDigit)

/-- Digits part of a Python float literal: `digits[.digits]` or
`.digits`, followed by an optional exponent. -/
def pyFloatNumeric (t : Str) : Bool :=
  let intPart := t.takeWhile isAsciiDigit
  let rest := t.dropWhile isAsciiDigit
  match rest with
  | '.' :: r2 =>
      let frac := r2.takeWhile isAsciiDigit
      let r3 := r2.dropWhile isAsciiDigit
      (!intPart.isEmpty || !frac.isEmpty) && pyFloatExp r3
  | _ => !intPart.isEmpty && pyFloatExp rest

/-- Acceptance test of Python's `float(value)` builtin: strip whitespace,
optional sign, then `inf`/`infinity`/`nan` (case-insensitive) or a decimal
literal with optional exponent.  (Underscore digit grouping, accepted by
CPython since 3.6, is not modelled; no claim depends on it.) -/
def isPyFloat (s : Str) : Bool :=
  let t0 := pyStrip s
  let t := match t0 with
           | c :: r => if c = '+' || c = '-' then r else t0
           | [] => t0
  let tl := pyLower t
  tl == ("inf".data) || tl == ("infinity".data) || tl == ("nan".data) ||
    pyFloatNumeric t

/-! ### Data model of `diagram_validator.py` -/

/-- `DiagramType` (the enum's two members). -/
inductive DiagramTypeT
  | mermaid
  | plantuml
deriving DecidableEq, Repr

/-- `DiagramType.from_string`: case-insensitive lookup, `None` on failure. -/
def diagramTypeFromString (v : Str) : Option DiagramTypeT :=
  if pyLower v == ("mermaid".data) then some .mermaid
  else if pyLower v == ("plantuml".data) then some .plantuml
  else none

/-- `ValidationResult`. -/
structure ValidationResult where
  valid : Bool
  errors : List Str
  suggestions : List Str
deriving DecidableEq, Repr

/-- `ValidationResult(False, errors, suggestions)`. -/
def invalidR (e s : List Str) : ValidationResult := ⟨false, e, s⟩

/-- `ValidationResult(True)`. -/
def validR : ValidationResult := ⟨true, [], []⟩

/-- `PLANTUML_START_TAGS` (insertion order preserved). -/
def plantumlStartTags : List (Str × Str) :=
  [ (("mindmap".data), ("@startmindmap".data))
  , (("gantt".data), ("@startgantt".data))
  , (("class".data), ("@startuml".data))
  , (("sequence".data), ("@startuml".data))
  , (("state".data), ("@startuml".data))
  , (("activity".data), ("@startuml".data))
  , (("component".data), ("@startuml".data))
  , (("deployment".data), ("@startuml".data))
  , (("object".data), ("@startuml".data))
  , (("usecase".data), ("@startuml".data))
  , (("er".data), ("@startuml".data))
  , (("timing".data), ("@startuml".data)) ]

/-! ### `DiagramValidator._validate_mermaid` -/

/-- The `valid_starters` set literal (membership only; the Python set's
iteration order, used in the suggestion text, is unspecified, and we render
it in the written order). -/
def mermaidStarters : List Str :=
  [ ("graph".data), ("flowchart".data), ("sequenceDiagram".data)
  , ("classDiagram".data), ("stateDiagram".data), ("erDiagram".data)
  , ("gantt".data), ("pie".data), ("mindmap".data) ]

/-- `code.split()[0].lower() if code else ''`. -/
def firstWordLower (code : Str) : Str :=
  match pySplitWS code with
  | [] => []
  | w :: _ => pyLower w

/-- A line that is nonblank and not a `%` comment. -/
def mmKeepLine (l : Str) : Bool :=
  !(pyStrip l).isEmpty && !startsWith ("%".data) (pyStrip l)

/-- `[line for line in code.split('\n') if line.strip() and not
line.strip().startswith('%')]` (original lines kept). -/
def mmFilteredRaw (code : Str) : List Str :=
  (splitChar '\n' code).filter mmKeepLine

/-- Same with each kept line stripped. -/
def mmFiltered (code : Str) : List Str := (mmFilteredRaw code).map pyStrip

/-- `any(line.strip() and not line.strip().startswith('%') for line in
code.split('\n')[1:])`. -/
def mermaidHasBody (code : Str) : Bool :=
  ((splitChar '\n' code).drop 1).any mmKeepLine

/-- The shared tail of `_validate_mermaid`: the `linkStyle` consistency
check, then `ValidationResult(True)`. -/
def mermaidTail (code : Str) : ValidationResult :=
  let link_styles := (splitChar '\n' code).filter (containsSub ("linkStyle".data))
  if !link_styles.isEmpty then
    if link_styles.any (fun l =>
        containsSub ("linkStyle 0 ".data) l || containsSub ("linkStyle 1 ".data) l) then
      invalidR [("Inconsistent link styling".data)]
        [("Use 'linkStyle default' instead of numbered linkStyles for consistent styling".data)]
    else validR
  else validR

/-- `sequenceDiagram` branch. -/
def validateMermaidSeq (code : Str) : ValidationResult :=
  let lines := mmFiltered code
  if !(lines.any fun l =>
      startsWith ("participant ".data) l || startsWith ("actor ".data) l) then
    invalidR [("Missing participant declarations".data)]
      [("Sequence diagrams should declare participants using 'participant' or 'actor'".data)]
  else
    let message_lines := lines.filter (fun l =>
      containsSub ("->".data) l || containsSub ("-->".data) l || containsSub (">>".data) l)
    if message_lines.isEmpty then
      invalidR [("No messages defined".data)]
        [("Add at least one message between participants using ->, -->, or >>".data)]
    else if message_lines.any (fun l =>
        !(containsSub (":".data) l &&
          (containsSub ("->".data) l || containsSub ("-->>".data) l ||
           containsSub ("->>".data) l || containsSub ("-->".data) l ||
           containsSub ("-x".data) l))) then
      invalidR [("Invalid message syntax".data)]
        [("Messages should follow format: ParticipantA->ParticipantB: Message".data)]
    else mermaidTail code

/-- Connection lines of a `graph`/`flowchart` body. -/
def graphConnections (lines : List Str) : List Str :=
  (lines.drop 1).filter (fun l =>
    containsSub ("-->".data) l || containsSub ("---".data) l)

/-- Node tokens harvested from one connection line
(`parts[0].split()` filtered). -/
def graphNodeTokens (line : Str) : List Str :=
  (pySplitWS ((pySplitSub ("--".data) line).headD [])).filter
    (fun part => !part.isEmpty &&
      !startsWith ("(".data) part && !startsWith ("[".data) part)

/-- `graph` / `flowchart` branch. -/
def validateMermaidGraph (code : Str) : ValidationResult :=
  let lines := mmFiltered code
  let connections := graphConnections lines
  let nodes := connections.flatMap graphNodeTokens
  if nodes.isEmpty then
    invalidR [("No nodes defined".data)]
      [("Add at least one node using [] or () syntax".data)]
  else if connections.isEmpty then
    invalidR [("No connections between nodes".data)]
      [("Connect nodes using --> or --- syntax".data)]
  else mermaidTail code

/-- `classDiagram` branch. -/
def validateMermaidClass (code : Str) : ValidationResult :=
  let lines := mmFiltered code
  let classes := (lines.drop 1).filter (startsWith ("class ".data))
  if classes.isEmpty then
    invalidR [("No classes defined".data)]
      [("Define at least one class using 'class ClassName' syntax".data)]
  else mermaidTail code

/-- `stateDiagram` branch (states are harvested only from transition
lines, so the emptiness check inspects transitions). -/
def validateMermaidState (code : Str) : ValidationResult :=
  let lines := mmFiltered code
  let transitions := (lines.drop 1).filter (containsSub ("-->".data))
  let states := transitions.flatMap (fun l =>
    let parts := pySplitSub ("-->".data) l
    [pyStrip (parts.headD []), pyStrip (parts.getD 1 [])])
  if states.isEmpty then
    invalidR [("No states defined".data)]
      [("Define states and transitions using state --> state syntax".data)]
  else mermaidTail code

/-- `erDiagram` branch. -/
def validateMermaidEr (code : Str) : ValidationResult :=
  let lines := mmFiltered code
  let relationships := (lines.drop 1).filter (fun l =>
    containsSub ("|".data) l && containsSub ("o".data) l)
  let entities := (lines.drop 1).flatMap (fun l =>
    if containsSub ("|".data) l && containsSub ("o".data) l then
      match pySplitWS l with
      | [] => []
      | w :: _ => [w]
    else if containsSub ("\x7b".data) l then
      [pyStrip ((pySplitSub ("\x7b".data) l).headD [])]
    else [])
  if entities.isEmpty then
    invalidR [("No entities defined".data)]
      [("Define at least one entity with properties".data)]
  else if relationships.isEmpty then
    invalidR [("No relationships defined".data)]
      [("Define relationships between entities using |o--o|, ||--|\x7b, etc.".data)]
  else mermaidTail code

/-- `gantt` branch. -/
def validateMermaidGantt (code : Str) : ValidationResult :=
  let lines := mmFiltered code
  if !(lines.any (containsSub ("dateFormat".data))) then
    invalidR [("Missing date format".data)]
      [("Specify date format using dateFormat directive".data)]
  else if !((lines.drop 1).any (containsSub (":".data))) then
    invalidR [("No tasks defined".data)]
      [("Add at least one task with duration".data)]
  else mermaidTail code

/-- Indentation of a line (`len(line) - len(line.lstrip())`). -/
def lineIndent (l : Str) : Nat := l.length - (lstripWS l).length

/-- The mindmap indentation walk (`indent > prev_indent + 2` fails). -/
def mindmapIndentOk : Nat → List Str → Bool
  | _, [] => true
  | prev, l :: rest =>
    if (pyStrip l).isEmpty then mindmapIndentOk prev rest
    else if lineIndent l > prev + 2 then false
    else mindmapIndentOk (lineIndent l) rest

/-- `mindmap` branch (operates on unstripped filtered lines). -/
def validateMermaidMindmap (code : Str) : ValidationResult :=
  let lines := mmFilteredRaw code
  if lines.length < 2 then
    invalidR [("Mindmap must have at least one node".data)]
      [("Add at least one root node to the mindmap".data)]
  else
    let root_level_items := (lines.drop 1).filter (fun l =>
      lineIndent l = 0 ||
      (lineIndent l = 2 && startsWith ("root".data) (pyStrip l)))
    if root_level_items.length = 0 then
      invalidR [("Mindmap missing root node".data)]
        [("Add a root level node to the mindmap".data)]
    else if root_level_items.length > 1 then
      invalidR [("Multiple root nodes detected".data)]
        [("Mindmap must have exactly one root node. Remove or indent additional root level items".data)]
    else if !(mindmapIndentOk 0 (lines.drop 1)) then
      invalidR [("Invalid indentation".data)]
        [("Each level should be indented by 2 spaces relative to its parent".data)]
    else mermaidTail code

/-- `pie` branch: a value line whose last space-separated token does not
parse as a float fails. -/
def pieHasBadValue (code : Str) : Bool :=
  ((splitChar '\n' code).drop 1).any (fun line =>
    !(pyStrip line).isEmpty && !startsWith ("%".data) (pyStrip line) &&
    (let parts := splitChar ' ' (pyStrip line)
     decide (2 ≤ parts.length) &&
       !isPyFloat (pyStripChar (fun c => c = '\"') (parts.getLastD []))))

def validateMermaidPie (code : Str) : ValidationResult :=
  if pieHasBadValue code then
    invalidR [("Invalid pie chart value".data)]
      [("Pie chart values must be numbers (not percentages)".data)]
  else mermaidTail code

/-- `DiagramValidator._validate_mermaid` on the (re-)stripped code. -/
def validateMermaidStripped (code : Str) : ValidationResult :=
  if !(mermaidStarters.contains (firstWordLower code)) then
    invalidR [("Invalid or missing diagram type declaration".data)]
      [("Diagram must start with one of: graph, flowchart, sequenceDiagram, classDiagram, stateDiagram, erDiagram, gantt, pie, mindmap".data)]
  else if !(mermaidHasBody code) then
    invalidR [("Diagram is empty or contains only comments".data)]
      [("Add at least one node or connection".data)]
  else if firstWordLower code == ("sequenceDiagram".data) then
    validateMermaidSeq code
  else if firstWordLower code == ("graph".data)
      || firstWordLower code == ("flowchart".data) then
    validateMermaidGraph code
  else if firstWordLower code == ("classDiagram".data) then
    validateMermaidClass code
  else if firstWordLower code == ("stateDiagram".data) then
    validateMermaidState code
  else if firstWordLower code == ("erDiagram".data) then
    validateMermaidEr code
  else if firstWordLower code == ("gantt".data) then
    validateMermaidGantt code
  else if firstWordLower code == ("mindmap".data) then
    validateMermaidMindmap code
  else if firstWordLower code == ("pie".data) then
    validateMermaidPie code
  else mermaidTail code

/-- `DiagramValidator._validate_mermaid`. -/
def validateMermaid (code : Str) : ValidationResult :=
  validateMermaidStripped (pyStrip code)

/-! ### `DiagramValidator._validate_plantuml` -/

/-- First line of the code, lower-cased (`code.split('\n')[0].lower()`). -/
def startLineLower (code : Str) : Str :=
  pyLower ((splitChar '\n' code).headD [])

/-- Nonblank content lines, stripped. -/
def pumlContentLines (content : Str) : List Str :=
  ((splitChar '\n' content).filter (fun l => !(pyStrip l).isEmpty)).map pyStrip

/-- `@startmindmap` node-hierarchy walk: the `*`-depth may grow by at most
one per line. -/
def pumlHierarchyOk : Nat → List Str → Bool
  | _, [] => true
  | prev, l :: rest =>
    let level := l.length - (l.dropWhile (fun c => c = '*')).length
    if level > prev + 1 then false
    else pumlHierarchyOk level rest

def pumlMindmap (content_lines : List Str) : ValidationResult :=
  if !(content_lines.any (containsSub ("*".data))) then
    invalidR [("No mindmap nodes found".data)]
      [("Add at least one node using * syntax".data)]
  else if !(pumlHierarchyOk 0 content_lines) then
    invalidR [("Invalid node hierarchy".data)]
      [("Each level can only increase by one * at a time".data)]
  else validR

def pumlClass (content_lines : List Str) : ValidationResult :=
  let classes := content_lines.filter (startsWith ("class ".data))
  if classes.isEmpty then
    invalidR [("No classes defined".data)]
      [("Define at least one class using 'class' keyword".data)]
  else validR

def pumlIsMsgLine (l : Str) : Bool :=
  !(startsWith ("participant ".data) l || startsWith ("actor ".data) l) &&
  (containsSub ("->".data) l || containsSub ("-->".data) l)

def pumlSeq (content_lines : List Str) : ValidationResult :=
  if content_lines.any (fun l => pumlIsMsgLine l && !containsSub (":".data) l) then
    invalidR [("Invalid message syntax".data)]
      [("Messages should include a description after ':' symbol".data)]
  else if !(content_lines.any (fun l =>
      startsWith ("participant ".data) l || startsWith ("actor ".data) l)) then
    invalidR [("No participants defined".data)]
      [("Define participants using 'participant' or 'actor' keywords".data)]
  else if !(content_lines.any pumlIsMsgLine) then
    invalidR [("No messages defined".data)]
      [("Add at least one message between participants".data)]
  else validR

/-- States harvested by the state-diagram branch. -/
def pumlStates (content_lines : List Str) : List Str :=
  content_lines.flatMap (fun l =>
    if startsWith ("state ".data) l then [(pySplitWS l).getD 1 []]
    else if containsSub ("->".data) l then
      let parts := pySplitSub ("->".data) l
      if parts.length = 2 then
        [pyStrip (parts.headD []),
         pyStrip ((pySplitSub (":".data) (parts.getD 1 [])).headD [])]
      else []
    else [])

def pumlState (content_lines : List Str) : ValidationResult :=
  let transitions := content_lines.filter (fun l =>
    !startsWith ("state ".data) l && containsSub ("->".data) l)
  if (pumlStates content_lines).isEmpty &&
      !(content_lines.any (containsSub ("[*]".data))) then
    invalidR [("No states defined".data)]
      [("Define states using 'state' keyword or [*] for start/end states".data)]
  else if transitions.isEmpty then
    invalidR [("No transitions defined".data)]
      [("Add transitions between states using ->".data)]
  else validR

def pumlComponentLine (l : Str) : Bool :=
  startsWith ("package ".data) l || startsWith ("[".data) l ||
    startsWith ("component ".data) l

def pumlComponent (content_lines : List Str) : ValidationResult :=
  let components := content_lines.filter pumlComponentLine
  if components.isEmpty then
    invalidR [("No components defined".data)]
      [("Define components using 'component', 'package', or [] syntax".data)]
  else validR

def pumlUsecaseLine (l : Str) : Bool :=
  startsWith ("usecase ".data) l || startsWith ("actor ".data) l

def pumlUsecase (content_lines : List Str) : ValidationResult :=
  let elements := content_lines.filter pumlUsecaseLine
  if elements.isEmpty then
    invalidR [("No actors or use cases defined".data)]
      [("Define actors and use cases using 'actor' and 'usecase' keywords".data)]
  else validR

def pumlActivity (content_lines : List Str) : ValidationResult :=
  if !(content_lines.any (startsWith ("start".data))) then
    invalidR [("Missing start node".data)]
      [("Activity diagrams must begin with 'start'".data)]
  else if !(content_lines.any (fun l =>
      startsWith ("stop".data) l || startsWith ("end".data) l)) then
    invalidR [("Missing end node".data)]
      [("Activity diagrams must end with 'stop' or 'end'".data)]
  else if !(content_lines.any (startsWith (":".data))) then
    invalidR [("No activities defined".data)]
      [("Define activities using :activity name; syntax".data)]
  else validR

def pumlErRelTokens : List Str :=
  [("--|\x7b".data), ("--||".data), ("--o|".data), ("--||".data)]

def pumlEr (content_lines : List Str) : ValidationResult :=
  let entities := content_lines.filter (startsWith ("entity ".data))
  let relationships := content_lines.filter (fun l =>
    !startsWith ("entity ".data) l && pumlErRelTokens.any (containsSub · l))
  if entities.isEmpty then
    invalidR [("No entities defined".data)]
      [("Define entities using 'entity' keyword".data)]
  else if relationships.isEmpty then
    invalidR [("No relationships defined".data)]
      [("Define relationships between entities".data)]
  else validR

/-- The `@startuml` subtype-dispatch chain. -/
def pumlUml (content : Str) (content_lines : List Str) : ValidationResult :=
  if content_lines.any (startsWith ("class ".data)) then
    pumlClass content_lines
  else if containsSub ("->".data) content || containsSub ("-->".data) content then
    pumlSeq content_lines
  else if containsSub ("state ".data) content || containsSub ("[*] ->".data) content then
    pumlState content_lines
  else if content_lines.any pumlComponentLine then
    pumlComponent content_lines
  else if content_lines.any pumlUsecaseLine then
    pumlUsecase content_lines
  else if content_lines.any (fun l =>
      startsWith ("start".data) l || startsWith (":".data) l ||
        startsWith ("if ".data) l) then
    pumlActivity content_lines
  else if content_lines.any (startsWith ("entity ".data)) then
    pumlEr content_lines
  else validR

def pumlGantt (content_lines : List Str) : ValidationResult :=
  if !(content_lines.any (fun l => containsSub ("project starts".data) (pyLower l))) then
    invalidR [("Missing project start".data)]
      [("Define project start date using 'Project starts' directive".data)]
  else if !(content_lines.any (fun l =>
      !containsSub ("project starts".data) (pyLower l) &&
      (containsSub ("] lasts".data) l || containsSub ("] starts".data) l))) then
    invalidR [("No tasks defined".data)]
      [("Add tasks using [Task] syntax with starts/lasts duration".data)]
  else validR

/-- The family dispatch on the start line, after the tag/content checks. -/
def pumlBody (code content : Str) : ValidationResult :=
  if containsSub ("@startmindmap".data) (startLineLower code) then
    pumlMindmap (pumlContentLines content)
  else if containsSub ("@startuml".data) (startLineLower code) then
    pumlUml content (pumlContentLines content)
  else if containsSub ("@startgantt".data) (startLineLower code) then
    pumlGantt (pumlContentLines content)
  else validR

/-- The content slice `code[code.find('\n') : code.rindex('@enduml')].strip()`. -/
def pumlContent (code : Str) (f : Nat) : Str :=
  pyStrip ((code.drop f).take (pyRIndexD ("@enduml".data) code - f))

/-- `DiagramValidator._validate_plantuml` on the (re-)stripped code. -/
def validatePlantumlStripped (code : Str) : ValidationResult :=
  if !(plantumlStartTags.any (fun kv => containsSub kv.2 (startLineLower code))) then
    invalidR [("Invalid or missing PlantUML start tag".data)]
      [("Diagram must start with one of: mindmap (@startmindmap), gantt (@startgantt), class (@startuml), sequence (@startuml), state (@startuml), activity (@startuml), component (@startuml), deployment (@startuml), object (@startuml), usecase (@startuml), er (@startuml), timing (@startuml)".data)]
  else if !(endsWith ("@enduml".data) (pyStrip code)) then
    invalidR [("Missing @enduml tag".data)]
      [("Diagram must end with @enduml".data)]
  else
    match idxOfChar '\n' code with
    | none =>
      invalidR [("Single line PlantUML diagram".data)]
        [("Add content between start and end tags".data)]
    | some f =>
      if (pumlContent code f).isEmpty then
        invalidR [("Empty diagram content".data)]
          [("Add diagram content between start and end tags".data)]
      else pumlBody code (pumlContent code f)

/-- `DiagramValidator._validate_plantuml`. -/
def validatePlantuml (code : Str) : ValidationResult :=
  validatePlantumlStripped (pyStrip code)

/-! ### `DiagramValidator.validate` -/

/-- `DiagramValidator.validate(code, diagram_type)` for a string
`diagram_type` argument. -/
def validate (code : Str) (diagram_type : Str) : ValidationResult :=
  if code.isEmpty || (pyStrip code).isEmpty then
    invalidR [("Empty diagram code".data)] []
  else
    match diagramTypeFromString (pyLower diagram_type) with
    | none =>
      invalidR [(("Invalid diagram type: ".data) ++ diagram_type)]
        [("Available types: ['mermaid', 'plantuml']".data)]
    | some .mermaid => validateMermaid (cleanMermaidCode code)
    | some .plantuml => validatePlantuml (cleanPlantumlCode code)

/-! ### The `valid → errors = []` invariant (every constructor of a
`ValidationResult` in the validator is either `invalidR` with a nonempty
error list or `validR`) -/

theorem inv_mermaidTail (code : Str) :
    (mermaidTail code).valid = true → (mermaidTail code).errors = [] := by
  unfold mermaidTail
  dsimp only
  split
  · split
    · intro h; cases h
    · intro _; rfl
  · intro _; rfl

theorem inv_validateMermaidSeq (code : Str) :
    (validateMermaidSeq code).valid = true →
      (validateMermaidSeq code).errors = [] := by
  unfold validateMermaidSeq
  dsimp only
  split
  · intro h; cases h
  · split
    · intro h; cases h
    · split
      · intro h; cases h
      · exact inv_mermaidTail code

theorem inv_validateMermaidGraph (code : Str) :
    (validateMermaidGraph code).valid = true →
      (validateMermaidGraph code).errors = [] := by
  unfold validateMermaidGraph
  dsimp only
  split
  · intro h; cases h
  · split
    · intro h; cases h
    · exact inv_mermaidTail code

theorem inv_validateMermaidClass (code : Str) :
    (validateMermaidClass code).valid = true →
      (validateMermaidClass code).errors = [] := by
  unfold validateMermaidClass
  dsimp only
  split
  · intro h; cases h
  · exact inv_mermaidTail code

theorem inv_validateMermaidState (code : Str) :
    (validateMermaidState code).valid = true →
      (validateMermaidState code).errors = [] := by
  unfold validateMermaidState
  dsimp only
  split
  · intro h; cases h
  · exact inv_mermaidTail code

theorem inv_validateMermaidEr (code : Str) :
    (validateMermaidEr code).valid = true →
      (validateMermaidEr code).errors = [] := by
  unfold validateMermaidEr
  dsimp only
  split
  · intro h; cases h
  · split
    · intro h; cases h
    · exact inv_mermaidTail code

theorem inv_validateMermaidGantt (code : Str) :
    (validateMermaidGantt code).valid = true →
      (validateMermaidGantt code).errors = [] := by
  unfold validateMermaidGantt
  dsimp only
  split
  · intro h; cases h
  · split
    · intro h; cases h
    · exact inv_mermaidTail code

theorem inv_validateMermaidMindmap (code : Str) :
    (validateMermaidMindmap code).valid = true →
      (validateMermaidMindmap code).errors = [] := by
  unfold validateMermaidMindmap
  dsimp only
  split
  · intro h; cases h
  · split
    · intro h; cases h
    · split
      · intro h; cases h
      · split
        · intro h; cases h
        · exact inv_mermaidTail code

theorem inv_validateMermaidPie (code : Str) :
    (validateMermaidPie code).valid = true →
      (validateMermaidPie code).errors = [] := by
  unfold validateMermaidPie
  split
  · intro h; cases h
  · exact inv_mermaidTail code

theorem inv_validateMermaidStripped (code : Str) :
    (validateMermaidStripped code).valid = true →
      (validateMermaidStripped code).errors = [] := by
  unfold validateMermaidStripped
  split
  · intro h; cases h
  · split
    · intro h; cases h
    · split
      · exact inv_validateMermaidSeq code
      · split
        · exact inv_validateMermaidGraph code
        · split
          · exact inv_validateMermaidClass code
          · split
            · exact inv_validateMermaidState code
            · split
              · exact inv_validateMermaidEr code
              · split
                · exact inv_validateMermaidGantt code
                · split
                  · exact inv_validateMermaidMindmap code
                  · split
                    · exact inv_validateMermaidPie code
                    · exact inv_mermaidTail code

theorem inv_validateMermaid (code : Str) :
    (validateMermaid code).valid = true →
      (validateMermaid code).errors = [] := by
  unfold validateMermaid
  exact inv_validateMermaidStripped _

theorem inv_pumlMindmap (ls : List Str) :
    (pumlMindmap ls).valid = true → (pumlMindmap ls).errors = [] := by
  unfold pumlMindmap
  split
  · intro h; cases h
  · split
    · intro h; cases h
    · intro _; rfl

theorem inv_pumlClass (ls : List Str) :
    (pumlClass ls).valid = true → (pumlClass ls).errors = [] := by
  unfold pumlClass
  dsimp only
  split
  · intro h; cases h
  · intro _; rfl

theorem inv_pumlSeq (ls : List Str) :
    (pumlSeq ls).valid = true → (pumlSeq ls).errors = [] := by
  unfold pumlSeq
  split
  · intro h; cases h
  · split
    · intro h; cases h
    · split
      · intro h; cases h
      · intro _; rfl

theorem inv_pumlState (ls : List Str) :
    (pumlState ls).valid = true → (pumlState ls).errors = [] := by
  unfold pumlState
  dsimp only
  split
  · intro h; cases h
  · split
    · intro h; cases h
    · intro _; rfl

theorem inv_pumlComponent (ls : List Str) :
    (pumlComponent ls).valid = true → (pumlComponent ls).errors = [] := by
  unfold pumlComponent
  dsimp only
  split
  · intro h; cases h
  · intro _; rfl

theorem inv_pumlUsecase (ls : List Str) :
    (pumlUsecase ls).valid = true → (pumlUsecase ls).errors = [] := by
  unfold pumlUsecase
  dsimp only
  split
  · intro h; cases h
  · intro _; rfl

theorem inv_pumlActivity (ls : List Str) :
    (pumlActivity ls).valid = true → (pumlActivity ls).errors = [] := by
  unfold pumlActivity
  split
  · intro h; cases h
  · split
    · intro h; cases h
    · split
      · intro h; cases h
      · intro _; rfl

theorem inv_pumlEr (ls : List Str) :
    (pumlEr ls).valid = true → (pumlEr ls).errors = [] := by
  unfold pumlEr
  dsimp only
  split
  · intro h; cases h
  · split
    · intro h; cases h
    · intro _; rfl

theorem inv_pumlUml (content : Str) (ls : List Str) :
    (pumlUml content ls).valid = true → (pumlUml content ls).errors = [] := by
  unfold pumlUml
  split
  · exact inv_pumlClass ls
  · split
    · exact inv_pumlSeq ls
    · split
      · exact inv_pumlState ls
      · split
        · exact inv_pumlComponent ls
        · split
          · exact inv_pumlUsecase ls
          · split
            · exact inv_pumlActivity ls
            · split
              · exact inv_pumlEr ls
              · intro _; rfl

theorem inv_pumlGantt (ls : List Str) :
    (pumlGantt ls).valid = true → (pumlGantt ls).errors = [] := by
  unfold pumlGantt
  split
  · intro h; cases h
  · split
    · intro h; cases h
    · intro _; rfl

theorem inv_pumlBody (code content : Str) :
    (pumlBody code content).valid = true →
      (pumlBody code content).errors = [] := by
  unfold pumlBody
  split
  · exact inv_pumlMindmap _
  · split
    · exact inv_pumlUml _ _
    · split
      · exact inv_pumlGantt _
      · intro _; rfl

theorem inv_validatePlantumlStripped (code : Str) :
    (validatePlantumlStripped code).valid = true →
      (validatePlantumlStripped code).errors = [] := by
  unfold validatePlantumlStripped
  split
  · intro h; cases h
  · split
    · intro h; cases h
    · split
      · intro h; cases h
      · split
        · intro h; cases h
        · exact inv_pumlBody _ _

theorem inv_validatePlantuml (code : Str) :
    (validatePlantuml code).valid = true →
      (validatePlantuml code).errors = [] := by
  unfold validatePlantuml
  exact inv_validatePlantumlStripped _

/-! ### `backend/utils/retry.py`: `RetryConfig.get_delay` -/

/-- `RetryConfig` (floats modelled as rationals; the `exceptions` tuple is
irrelevant to the delay computation and omitted). -/
structure RetryConfig where
  max_attempts : Nat := 3
  base_delay : ℚ := 1
  max_delay : ℚ := 10
  exponential_backoff : Bool := true
  jitter : ℚ := 0

/-- `RetryConfig.get_delay(attempt)`.  The `random.uniform(-jitter,
jitter)` sample is passed in explicitly as `jitterSample`. -/
def getDelay (c : RetryConfig) (attempt : Nat) (jitterSample : ℚ) : ℚ :=
  let delay :=
    if !c.exponential_backoff then c.base_delay
    else min (c.base_delay * 2 ^ (attempt - 1)) c.max_delay
  if c.jitter > 0 then max 0 (delay + jitterSample) else delay

/-- The backoff formula as the spec states it:
`min(baseDelay * 2^(n-1), maxDelay)` when exponential, else `baseDelay`. -/
def specDelay (c : RetryConfig) (attempt : Nat) : ℚ :=
  if c.exponential_backoff then min (c.base_delay * 2 ^ (attempt - 1)) c.max_delay
  else c.base_delay

/-! ### `backend/utils/retry.py`: `CircuitBreaker` -/

/-- The breaker's `state` strings (`"CLOSED"`, `"OPEN"`, `"HALF_OPEN"`). -/
inductive BreakerState
  | closed
  | opened
  | halfOpen
deriving DecidableEq, Repr

/-- `CircuitBreaker` (times modelled as rationals; `current_time`, read
from the event loop in the source, is passed in explicitly). -/
structure CircuitBreaker where
  failure_threshold : Nat
  reset_timeout : ℚ
  half_open_timeout : ℚ
  failures : Nat
  last_failure_time : ℚ
  state : BreakerState
deriving DecidableEq, Repr

/-- `CircuitBreaker.record_failure`. -/
def record_failure (b : CircuitBreaker) (current_time : ℚ) : CircuitBreaker :=
  let failures0 :=
    if current_time - b.last_failure_time > b.reset_timeout then 0 else b.failures
  let failures := failures0 + 1
  { b with
    failures := failures
    last_failure_time := current_time
    state := if failures ≥ b.failure_threshold then .opened else b.state }

/-- `CircuitBreaker.record_success`. -/
def record_success (b : CircuitBreaker) : CircuitBreaker :=
  { b with failures := 0, state := .closed }

/-- `CircuitBreaker.can_execute` (returns the updated breaker and the
boolean answer). -/
def can_execute (b : CircuitBreaker) (current_time : ℚ) : CircuitBreaker × Bool :=
  if b.state = .closed then (b, true)
  else if current_time - b.last_failure_time > b.half_open_timeout then
    ({ b with state := .halfOpen }, true)
  else (b, false)

/-- One call against the breaker's public interface. -/
inductive BreakerOp
  | fail (t : ℚ)
  | success
  | canExec (t : ℚ)

/-- State reached after one interface call. -/
def applyOp (b : CircuitBreaker) : BreakerOp → CircuitBreaker
  | .fail t => record_failure b t
  | .success => record_success b
  | .canExec t => (can_execute b t).1

/-! ### `backend/models/configs.py` and the `run_agent` repair loop -/

/-- `RetrySettings` (pydantic model in `configs.py`). -/
structure RetrySettings where
  max_attempts : Nat := 3
  base_delay : ℚ := 1
  max_delay : ℚ := 10
  exponential_backoff : Bool := true
  jitter : ℚ := 1 / 10

/-- `CircuitBreakerSettings`. -/
structure CircuitBreakerSettings where
  enabled : Bool := true
  failure_threshold : Nat := 5
  reset_timeout : ℚ := 60
  half_open_timeout : ℚ := 30

/-- `AgentConfig`: exactly the fields of the source model.  (There is no
consecutive-failure bound among them.) -/
structure AgentConfig where
  enabled : Bool := true
  max_iterations : Nat := 3
  temperature : ℚ := 1 / 5
  model_name : Option Str := none
  system_prompt : Option Str := none
  retry : RetrySettings := {}
  circuit_breaker : CircuitBreakerSettings := {}

/-- A structured rendering of the notes appended by the repair loop. -/
inductive AgentNote
  | successfullyFixed
  | stillFixing (attempt : Nat) (errorSummary : List Str)
  | failedAfter (attempts : Nat)
deriving DecidableEq, Repr

/-- The loop state of `run_agent` (`attempts`, `state.iterations`,
`state.code`, `state.errors`, `state.notes`). -/
structure LoopState where
  attempts : Nat
  iterations : Nat
  code : Str
  errors : List Str
  notes : List AgentNote

/-- `DiagramAgentOutput` fields produced by `_prepare_output` that the
claims speak about. -/
structure AgentLoopOut where
  code : Str
  valid : Bool
  iterations : Nat
  notes : List AgentNote
  errors : List Str

/-- The `while state.errors and attempts < max_iterations` loop of
`run_agent` (lines 699-731).  `fix` abstracts one successful
`_fix_diagram` + `_strip_comments` round trip (attempt index, current
code, current errors ↦ new code); `validator` abstracts
`_validate_mermaid`/`_validate_plantuml` composed into the error list.
The fuel argument is `max_iterations - attempts`, the loop's variant. -/
def agentFixLoop (validator : Str → List Str)
    (fix : Nat → Str → List Str → Str) : Nat → LoopState → LoopState
  | 0, st => st
  | fuel + 1, st =>
    if st.errors.isEmpty then st
    else
      let attempts' := st.attempts + 1
      let code' := fix attempts' st.code st.errors
      let errors' := validator code'
      let notes' := st.notes ++
        (if errors'.isEmpty then [AgentNote.successfullyFixed]
         else [AgentNote.stillFixing attempts' (errors'.take 2)])
      agentFixLoop validator fix fuel
        ⟨attempts', st.iterations + 1, code', errors', notes'⟩

/-- `run_agent` from the first validation of the generated code onwards
(the generation and RAG steps, abstracted into `code0`, succeed by
hypothesis), followed by `_prepare_output`. -/
def runAgent (validator : Str → List Str) (fix : Nat → Str → List Str → Str)
    (cfg : AgentConfig) (code0 : Str) : AgentLoopOut :=
  let st0 : LoopState := ⟨0, 0, code0, validator code0, []⟩
  let st := agentFixLoop validator fix cfg.max_iterations st0
  let notes :=
    if !st.errors.isEmpty && decide (st.attempts ≥ cfg.max_iterations) then
      st.notes ++ [AgentNote.failedAfter st.attempts]
    else st.notes
  ⟨st.code, st.errors.isEmpty, st.iterations, notes, st.errors⟩

/-- If the validator rejects everything, the loop consumes its whole fuel,
adding one attempt and one iteration per unit. -/
theorem agentFixLoop_exhaust (validator : Str → List Str)
    (fix : Nat → Str → List Str → Str)
    (hv : ∀ c, validator c ≠ []) :
    ∀ fuel st, st.errors ≠ [] →
      (agentFixLoop validator fix fuel st).attempts = st.attempts + fuel ∧
      (agentFixLoop validator fix fuel st).iterations = st.iterations + fuel ∧
      (agentFixLoop validator fix fuel st).errors ≠ [] := by
  intro fuel
  induction fuel with
  | zero => intro st hst; exact ⟨rfl, rfl, hst⟩
  | succ n ih =>
    intro st hst
    unfold agentFixLoop
    rw [if_neg (by simpa [List.isEmpty_iff] using hst)]
    dsimp only
    have herr : validator (fix (st.attempts + 1) st.code st.errors) ≠ [] := hv _
    obtain ⟨h1, h2, h3⟩ := ih ⟨st.attempts + 1, st.iterations + 1,
      fix (st.attempts + 1) st.code st.errors,
      validator (fix (st.attempts + 1) st.code st.errors),
      st.notes ++
        (if (validator (fix (st.attempts + 1) st.code st.errors)).isEmpty
         then [AgentNote.successfullyFixed]
         else [AgentNote.stillFixing (st.attempts + 1)
           ((validator (fix (st.attempts + 1) st.code st.errors)).take 2)])⟩ herr
    refine ⟨?_, ?_, h3⟩
    · rw [h1]
      show st.attempts + 1 + n = st.attempts + (n + 1)
      omega
    · rw [h2]
      show st.iterations + 1 + n = st.iterations + (n + 1)
      omega

/-- Shared helper for the exhaustion claims: when the validator rejects
every fix the backend produces, the loop runs the full budget. -/
theorem runAgent_always_invalid (validator : Str → List Str)
    (fix : Nat → Str → List Str → Str) (cfg : AgentConfig) (code0 : Str)
    (hv : ∀ c, validator c ≠ []) :
    (runAgent validator fix cfg code0).valid = false ∧
    (runAgent validator fix cfg code0).iterations = cfg.max_iterations := by
  obtain ⟨h1, h2, h3⟩ := agentFixLoop_exhaust validator fix hv cfg.max_iterations
    ⟨0, 0, code0, validator code0, []⟩ (hv code0)
  unfold runAgent
  dsimp only
  constructor
  · simpa [List.isEmpty_iff] using h3
  · rw [h2]
    show 0 + cfg.max_iterations = cfg.max_iterations
    omega

/-- Modelled from the spec: `DiagramValidator.detect_type` is called by
`DiagramGeneratorService.generate_diagram` and exercised by
`tests/utils/test_diagram_validator.py`, but no definition of it exists
under `src/`.  Following §4.1 of the spec, it scans the first non-blank
lines for family-specific start tokens (`graph`, `flowchart`,
`sequenceDiagram`, `classDiagram`, `stateDiagram`, `erDiagram`, `gantt`,
`pie`, `mindmap` for Mermaid; `@startuml`, `@startmindmap`, `@startgantt`
for PlantUML) and returns `none` on detection failure. -/
def detect_type (code : Str) : Option DiagramTypeT :=
  detectScan (((splitChar '\n' code).map pyStrip).filter (fun l => !l.isEmpty))
where
  detectScan : List Str → Option DiagramTypeT
    | [] => none
    | l :: rest =>
      if mermaidStarters.any (fun tok => startsWith tok l) then some .mermaid
      else if [("@startuml".data), ("@startmindmap".data), ("@startgantt".data)].any
          (fun tok => containsSub tok l) then some .plantuml
      else detectScan rest

/-! ### The claims -/

/-- C1 (amended): the PlantUML cleaner `_clean_plantuml_code` is
idempotent: cleaning twice equals cleaning once, for every input string.
(The Mermaid cleaner is not; see the counterexample.) -/
theorem claim_C1_plantuml_cleaner_idempotent (x : Str) :
    cleanPlantumlCode (cleanPlantumlCode x) = cleanPlantumlCode x :=
  cleanPlantumlCode_idem x

/-- C1 (counterexample): the Mermaid cleaner `_clean_mermaid_code` is not
idempotent: it strips only one trailing semicolon per application, so on
`"graph TD\nA-->B;;"` the second application changes the result again. -/
theorem claim_C1_counterexample :
    cleanMermaidCode (cleanMermaidCode ("graph TD\nA-->B;;".data)) ≠
      cleanMermaidCode ("graph TD\nA-->B;;".data) := by decide

/-- C2: if the validator reports every candidate (the initial code and
every fixed code) invalid and every backend fix call succeeds, then
`run_agent` terminates (it is a total function of its abstracted inputs),
performs exactly `max_iterations` fix attempts, and returns an output with
`valid = false` and `iterations = max_iterations`. -/
theorem claim_C2_run_agent_exhaustion (validator : Str → List Str)
    (fix : Nat → Str → List Str → Str) (cfg : AgentConfig) (code0 : Str)
    (hv : ∀ c, validator c ≠ []) :
    (runAgent validator fix cfg code0).valid = false ∧
    (runAgent validator fix cfg code0).iterations = cfg.max_iterations :=
  runAgent_always_invalid validator fix cfg code0 hv

theorem claim_C2_witness :
    (runAgent (fun _ => [("e".data)]) (fun _ _ _ => []) {} []).valid = false ∧
    (runAgent (fun _ => [("e".data)]) (fun _ _ _ => []) {} []).iterations = 3 :=
  claim_C2_run_agent_exhaustion (fun _ => [("e".data)]) (fun _ _ _ => []) {} []
    (fun _ => by simp)

/-- C3: evaluation of `_validate_plantuml` at the claim's own example: a
`@startmindmap` document that ends with the matching `@endmindmap` tag is
rejected with "Missing @enduml tag", while the same document ending with
the mismatched `@enduml` is accepted — the code requires the literal
`@enduml` terminator for every PlantUML family, contradicting both the
claim and the repository's own tests. -/
theorem claim_C3_end_tag_evaluation :
    validate ("@startmindmap\n* Project\n** Frontend\n@endmindmap".data)
        ("plantuml".data) =
      invalidR [("Missing @enduml tag".data)] [("Diagram must end with @enduml".data)] ∧
    (validate ("@startmindmap\n* Project\n** Frontend\n@enduml".data)
        ("plantuml".data)).valid = true := by decide

/-- C4 (amended): the only state changes a `CircuitBreaker` undergoes are:
to `OPEN` on a `record_failure` whose updated (possibly reset) failure
count reaches `failure_threshold`, from `CLOSED` or `HALF_OPEN`; `OPEN` to
`HALF_OPEN` on a `can_execute` issued more than `half_open_timeout` after
the last failure; and to `CLOSED` on a `record_success`, from `OPEN` or
`HALF_OPEN` (so `record_success` closes the breaker from any state, and a
`record_failure` in `HALF_OPEN` opens the breaker only when the updated
count reaches the threshold). -/
theorem claim_C4_breaker_transitions (b : CircuitBreaker) (op : BreakerOp)
    (h : (applyOp b op).state ≠ b.state) :
    ((applyOp b op).state = .opened ∧
      (∃ t, op = .fail t ∧
        (if t - b.last_failure_time > b.reset_timeout then 0 else b.failures) + 1
          ≥ b.failure_threshold) ∧
      (b.state = .closed ∨ b.state = .halfOpen)) ∨
    ((applyOp b op).state = .halfOpen ∧ b.state = .opened ∧
      (∃ t, op = .canExec t ∧ b.half_open_timeout < t - b.last_failure_time)) ∨
    ((applyOp b op).state = .closed ∧ op = .success ∧
      (b.state = .opened ∨ b.state = .halfOpen)) := by
  cases op with
  | fail t =>
    have hstate : (applyOp b (BreakerOp.fail t)).state =
        (if (if t - b.last_failure_time > b.reset_timeout then 0 else b.failures) + 1
            ≥ b.failure_threshold then BreakerState.opened else b.state) := rfl
    by_cases hth : (if t - b.last_failure_time > b.reset_timeout then 0 else b.failures) + 1
        ≥ b.failure_threshold
    · rw [hstate, if_pos hth] at h
      refine Or.inl ⟨by rw [hstate, if_pos hth], ⟨t, rfl, hth⟩, ?_⟩
      cases hs : b.state with
      | closed => exact Or.inl rfl
      | opened => rw [hs] at h; exact absurd rfl h
      | halfOpen => exact Or.inr rfl
    · rw [hstate, if_neg hth] at h
      exact absurd rfl h
  | success =>
    refine Or.inr (Or.inr ⟨rfl, rfl, ?_⟩)
    have h' : BreakerState.closed ≠ b.state := h
    cases hs : b.state with
    | closed => exact absurd hs.symm h'
    | opened => exact Or.inl rfl
    | halfOpen => exact Or.inr rfl
  | canExec t =>
    by_cases hc : b.state = BreakerState.closed
    · have hb : applyOp b (BreakerOp.canExec t) = b := by
        simp only [applyOp, can_execute, if_pos hc]
      rw [hb] at h
      exact absurd rfl h
    · by_cases ht : t - b.last_failure_time > b.half_open_timeout
      · have hb : applyOp b (BreakerOp.canExec t) = { b with state := .halfOpen } := by
          simp only [applyOp, can_execute, if_neg hc, if_pos ht]
        rw [hb] at h ⊢
        refine Or.inr (Or.inl ⟨rfl, ?_, ⟨t, rfl, ht⟩⟩)
        cases hs : b.state with
        | closed => exact absurd hs hc
        | opened => rfl
        | halfOpen => rw [hs] at h; exact absurd rfl h
      · have hb : applyOp b (BreakerOp.canExec t) = b := by
          simp only [applyOp, can_execute, if_neg hc, if_neg ht]
        rw [hb] at h
        exact absurd rfl h

theorem claim_C4_witness :
    (applyOp ⟨5, 60, 30, 5, 0, .opened⟩ BreakerOp.success).state ≠
        BreakerState.opened ∧
    (((applyOp ⟨5, 60, 30, 5, 0, .opened⟩ BreakerOp.success).state = .opened ∧
      (∃ t, BreakerOp.success = .fail t ∧
        (if t - (0:ℚ) > 60 then 0 else 5) + 1 ≥ 5) ∧
      (BreakerState.opened = .closed ∨ BreakerState.opened = .halfOpen)) ∨
    ((applyOp ⟨5, 60, 30, 5, 0, .opened⟩ BreakerOp.success).state = .halfOpen ∧
      BreakerState.opened = .opened ∧
      (∃ t, BreakerOp.success = .canExec t ∧ (30:ℚ) < t - 0)) ∨
    ((applyOp ⟨5, 60, 30, 5, 0, .opened⟩ BreakerOp.success).state = .closed ∧
      BreakerOp.success = .success ∧
      (BreakerState.opened = .opened ∨ BreakerState.opened = .halfOpen))) :=
  ⟨by decide, claim_C4_breaker_transitions ⟨5, 60, 30, 5, 0, .opened⟩
    BreakerOp.success (by decide)⟩

/-- C4 (counterexample): a `record_failure` issued in the `HALF_OPEN`
state does not always move the breaker to `OPEN`: with threshold 2,
`reset_timeout` 60 and `half_open_timeout` 30, two failures at time 0 open
the breaker, `can_execute` at time 100 half-opens it, and a further
`record_failure` at time 100 first resets the count (100 − 0 > 60), so the
updated count 1 stays below the threshold and the state remains
`HALF_OPEN`. -/
theorem claim_C4_counterexample :
    ((can_execute (record_failure (record_failure
        ⟨2, 60, 30, 0, 0, .closed⟩ 0) 0) 100).1.state = BreakerState.halfOpen) ∧
    ((record_failure ((can_execute (record_failure (record_failure
        ⟨2, 60, 30, 0, 0, .closed⟩ 0) 0) 100).1) 100).state = BreakerState.halfOpen) ∧
    ((record_failure ((can_execute (record_failure (record_failure
        ⟨2, 60, 30, 0, 0, .closed⟩ 0) 0) 100).1) 100).state ≠ BreakerState.opened) := by
  have h1 : record_failure ⟨2, 60, 30, 0, 0, .closed⟩ 0 = ⟨2, 60, 30, 1, 0, .closed⟩ := by
    norm_num [record_failure]
  have h2 : record_failure (⟨2, 60, 30, 1, 0, .closed⟩ : CircuitBreaker) 0 =
      ⟨2, 60, 30, 2, 0, .opened⟩ := by
    norm_num [record_failure]
  have h3 : can_execute (⟨2, 60, 30, 2, 0, .opened⟩ : CircuitBreaker) 100 =
      (⟨2, 60, 30, 2, 0, .halfOpen⟩, true) := by
    norm_num [can_execute]
    exact fun hcon => absurd hcon (by decide)
  have h4 : record_failure (⟨2, 60, 30, 2, 0, .halfOpen⟩ : CircuitBreaker) 100 =
      ⟨2, 60, 30, 1, 100, .halfOpen⟩ := by
    norm_num [record_failure]
  rw [h1, h2, h3]
  dsimp only
  rw [h4]
  exact ⟨rfl, rfl, by decide⟩

/-- C5: the spec-modelled family detection returns Mermaid for
`"graph TD\nA-->B"`, PlantUML for `"@startuml\nA->B\n@enduml"`, and `none`
(a value, not an exception) for `"not a diagram"`. -/
theorem claim_C5_detect_type :
    detect_type ("graph TD\nA-->B".data) = some DiagramTypeT.mermaid ∧
    detect_type ("@startuml\nA->B\n@enduml".data) = some DiagramTypeT.plantuml ∧
    detect_type ("not a diagram".data) = none := by decide

/-- C6 (amended): the repair loop enforces only the single total-iteration
bound `max_iterations` (`AgentConfig` has no consecutive-failure field): a
backend that repeatedly returns the same broken output, always rejected
with the same errors, consumes the full iteration budget
(`iterations = max_iterations`, `valid = false`) instead of stopping after
any smaller consecutive-failure bound. -/
theorem claim_C6_only_total_bound (cfg : AgentConfig) (code0 broken : Str)
    (errs : List Str) (he : errs ≠ []) :
    (runAgent (fun _ => errs) (fun _ _ _ => broken) cfg code0).iterations =
        cfg.max_iterations ∧
    (runAgent (fun _ => errs) (fun _ _ _ => broken) cfg code0).valid = false := by
  obtain ⟨h1, h2⟩ := runAgent_always_invalid (fun _ => errs) (fun _ _ _ => broken)
    cfg code0 (fun _ => he)
  exact ⟨h2, h1⟩

theorem claim_C6_witness :
    (runAgent (fun _ => [("e".data)]) (fun _ _ _ => ("b".data))
        { max_iterations := 2 } []).iterations = 2 ∧
    (runAgent (fun _ => [("e".data)]) (fun _ _ _ => ("b".data))
        { max_iterations := 2 } []).valid = false :=
  claim_C6_only_total_bound { max_iterations := 2 } [] ("b".data)
    [("e".data)] (by simp)

/-- C6 (counterexample): with `max_iterations = 5` and a backend that
returns the same broken output on every fix attempt, the loop still
performs all 5 iterations — it never stops earlier under any
consecutive-failure bound. -/
theorem claim_C6_counterexample :
    (runAgent (fun _ => [("same error".data)]) (fun _ _ _ => ("same broken output".data))
        { max_iterations := 5 } ("graph".data)).iterations = 5 ∧
    ¬ ((runAgent (fun _ => [("same error".data)]) (fun _ _ _ => ("same broken output".data))
        { max_iterations := 5 } ("graph".data)).iterations < 5) := by decide

/-- C7: `RetryConfig.get_delay` computes, for a 1-based attempt `n`,
`min(base_delay * 2^(n-1), max_delay)` when exponential backoff is enabled
and the constant `base_delay` otherwise; when a jitter is configured the
sampled jitter is added and the result clamped to be non-negative; and
with `base_delay=1, max_delay=4`, exponential backoff and zero jitter the
delays for attempts 1..4 are 1, 2, 4, 4. -/
theorem claim_C7_retry_backoff (c : RetryConfig) (n : Nat) (j : ℚ) (hn : 1 ≤ n) :
    (c.jitter = 0 → getDelay c n j = specDelay c n) ∧
    (0 < c.jitter → getDelay c n j = max 0 (specDelay c n + j)) ∧
    getDelay ⟨3, 1, 4, true, 0⟩ 1 j = 1 ∧
    getDelay ⟨3, 1, 4, true, 0⟩ 2 j = 2 ∧
    getDelay ⟨3, 1, 4, true, 0⟩ 3 j = 4 ∧
    getDelay ⟨3, 1, 4, true, 0⟩ 4 j = 4 := by
  refine ⟨?_, ?_, ?_, ?_, ?_, ?_⟩
  · intro h0
    unfold getDelay specDelay
    rw [h0]
    cases hexp : c.exponential_backoff <;> simp [hexp]
  · intro h0
    unfold getDelay specDelay
    rw [if_pos h0]
    cases hexp : c.exponential_backoff <;> simp [hexp]
  all_goals
    unfold getDelay
    norm_num

theorem claim_C7_witness :
    (1 ≤ 1) ∧
    (((⟨3, 1, 4, true, 0⟩ : RetryConfig).jitter = 0 →
        getDelay ⟨3, 1, 4, true, 0⟩ 1 0 = specDelay ⟨3, 1, 4, true, 0⟩ 1) ∧
      (0 < (⟨3, 1, 4, true, 0⟩ : RetryConfig).jitter →
        getDelay ⟨3, 1, 4, true, 0⟩ 1 0 = max 0 (specDelay ⟨3, 1, 4, true, 0⟩ 1 + 0)) ∧
      getDelay ⟨3, 1, 4, true, 0⟩ 1 0 = 1 ∧
      getDelay ⟨3, 1, 4, true, 0⟩ 2 0 = 2 ∧
      getDelay ⟨3, 1, 4, true, 0⟩ 3 0 = 4 ∧
      getDelay ⟨3, 1, 4, true, 0⟩ 4 0 = 4) :=
  ⟨by decide, claim_C7_retry_backoff ⟨3, 1, 4, true, 0⟩ 1 0 (by decide)⟩

/-- C8 (amended): validating `"graph TD\nA[Start] -> B[End]"` as Mermaid
yields `valid = false` with the single error "No nodes defined" — which
does not mention arrow syntax (the connection scan finds no `-->`/`---`
token, so no node is collected) — and after mechanically replacing `->`
with `-->` re-validation yields `valid = true`. -/
theorem claim_C8_arrow_syntax :
    (validate ("graph TD\nA[Start] -> B[End]".data) ("mermaid".data)).valid = false ∧
    (validate ("graph TD\nA[Start] -> B[End]".data) ("mermaid".data)).errors =
      [("No nodes defined".data)] ∧
    (validate (pyReplace ("->".data) ("-->".data)
        ("graph TD\nA[Start] -> B[End]".data)) ("mermaid".data)).valid = true := by
  decide

/-- C8 (counterexample): the claim requires an error message mentioning
arrow syntax, but validation of the bad input fails with errors none of
which contain the word "arrow" (in any case) or an arrow token. -/
theorem claim_C8_counterexample :
    (validate ("graph TD\nA[Start] -> B[End]".data) ("mermaid".data)).errors ≠ [] ∧
    ((validate ("graph TD\nA[Start] -> B[End]".data) ("mermaid".data)).errors.all
      (fun e => !(containsSub ("arrow".data) (pyLower e) || containsSub ("->".data) e)))
      = true := by decide

/-- C9: for every code string and every diagram-type string,
`DiagramValidator.validate` returns a result in which `valid = true`
implies that the error list is empty. -/
theorem claim_C9_valid_implies_no_errors (code diagram_type : Str)
    (h : (validate code diagram_type).valid = true) :
    (validate code diagram_type).errors = [] := by
  revert h
  unfold validate
  split
  · intro h; cases h
  · split
    · intro h; cases h
    · exact inv_validateMermaid _
    · exact inv_validatePlantuml _

theorem claim_C9_witness :
    (validate ("graph TD\nA --> B".data) ("mermaid".data)).errors = [] :=
  claim_C9_valid_implies_no_errors ("graph TD\nA --> B".data) ("mermaid".data)
    (by decide)

/-- C10: for every diagram-type string, including unrecognized ones,
`validate` on an empty or whitespace-only code string returns
`ValidationResult(False, ["Empty diagram code"])` before any family
resolution. -/
theorem claim_C10_empty_input (code diagram_type : Str)
    (h : pyStrip code = []) :
    validate code diagram_type = invalidR [("Empty diagram code".data)] [] := by
  unfold validate
  rw [if_pos (show (code.isEmpty || (pyStrip code).isEmpty) = true by
    simp [h, List.isEmpty_iff])]

theorem claim_C10_witness :
    validate (" \t ".data) ("bogus".data) = invalidR [("Empty diagram code".data)] [] :=
  claim_C10_empty_input (" \t ".data) ("bogus".data) (by decide)

end DiagramGen
